import Mathlib

/-
Verification of the BirdBeaks repository's interpolation core.

Shallow embedding of:
  * `__init__.py`     -- `load_radar_info`, class `MagArray` (`__init__`,
                         `__call__`, `_create_interp`);
  * `convert_netcdf.py` -- the rolling-maximum (`bmax`) loop;
  * `generate_db.py`  -- the argument order of the interpolation loop.

Modelling conventions:
  * a floating-point reading is `Option ℚ`: `some q` is a finite value,
    `none` is a non-finite value (NaN); `np.isfinite` becomes `Option.isSome`
    and `np.isnan` becomes `Option.isNone` (the readings interpolated are
    magnitudes filtered for finiteness, so non-finite results are NaN);
  * timestamps are `ℤ` (ordered, with decidable exact equality, exactly the
    properties `__call__` uses on `datetime` values);
  * a Python dict is an insertion-ordered association: the observation
    dataset is its ordered key list plus a record lookup, and the
    interpolator cache `self.interp` is an association list extended at the
    end on insertion, looked up by exact key equality;
  * `scipy.interpolate.LinearNDInterpolator` is external library code: it is
    modelled as an opaque deterministic function `Interp` of the exact
    construction data (filtered points, filtered values), quantified over in
    the theorems and instantiated concretely in witnesses.
-/

namespace BirdBeaks

/-- A scalar channel sample: `some q` models a finite reading, `none` a
non-finite (NaN) one. -/
abbrev Value := Option ℚ

/-- Per-station entry of the observation dataset (`data[s]` as built by
`convert_netcdf.py`): fixed coordinates and the instantaneous-magnitude
series `b`, aligned with the shared time index. -/
structure StationRec where
  geolon : ℚ
  geolat : ℚ
  b : List Value

/-- The observation dataset handed to `MagArray.__init__`: the ordered dict
key list (including the reserved key `"time"`), the shared time index stored
under `"time"`, and the per-station records. -/
structure Dataset where
  keys : List String
  timeIdx : List ℤ
  stn : String → StationRec

/-- Embeds `self.data[m]['b'][loc]` with `loc = (self.data['time'] == time)`:
the station's reading at the position where `time` matches the shared time
index exactly (first match; the index has unique entries), NaN when the
timestamp does not occur. -/
def valAt (d : Dataset) (m : String) (t : ℤ) : Value :=
  match d.timeIdx.findIdx? (fun u => u == t) with
  | some i => (d.stn m).b.getD i none
  | none => none

/-- The row `(self.data[m]['geolon'], self.data[m]['geolat'])` stored into
`self.points` for station `m`. -/
def coordOf (d : Dataset) (m : String) : ℚ × ℚ :=
  ((d.stn m).geolon, (d.stn m).geolat)

/-- The construction data of one interpolation surface: the arguments
`(self.points[filter,:], b[filter])` passed to `LinearNDInterpolator`. -/
abbrev Surface := List (ℚ × ℚ) × List ℚ

/-- An interpolation backend: `scipy.interpolate.LinearNDInterpolator`
abstracted as a deterministic function of its construction data and of the
query point, returning a possibly non-finite value. -/
abbrev Interp := List (ℚ × ℚ) → List ℚ → ℚ → ℚ → Value

/-- The mutable state of a `MagArray` object: the dataset, `self.points`,
and the `self.interp` cache (dict keyed by timestamp). -/
structure MagState where
  data : Dataset
  points : List (ℚ × ℚ)
  interpCache : List (ℤ × Surface)

/-- Models `MagArray.__init__`: store the dataset, create the empty interpolator
dict, and fill `self.points` with `(geolon, geolat)` per station, where the
station list is the dict key list with the reserved `"time"` key removed
(`mags = list(self.data.keys()); mags.remove('time')` removes the first
occurrence, and a dict key occurs exactly once). -/
def magInit (d : Dataset) : MagState :=
  { data := d
  , points := (d.keys.erase "time").map (fun m => coordOf d m)
  , interpCache := [] }

/-- The surface built by `MagArray._create_interp(time)`: re-enumerate the
station keys, gather `b[i] = self.data[m]['b'][loc]`, build the finiteness
mask `filter = np.isfinite(b)`, and keep `(self.points[filter,:],
b[filter])` (applying the one mask to coordinates and readings jointly). -/
def surfOf (st : MagState) (t : ℤ) : Surface :=
  let b := (st.data.keys.erase "time").map (fun m => valAt st.data m t)
  let kept := (st.points.zip b).filter (fun pb => pb.2.isSome)
  (kept.map Prod.fst, kept.map (fun pb => pb.2.getD 0))

/-- Models `MagArray._create_interp(time)`: insert the constructed surface into the
`self.interp` dict under the exact timestamp key. -/
def createInterp (st : MagState) (t : ℤ) : MagState :=
  { st with interpCache := st.interpCache ++ [(t, surfOf st t)] }

/-- The cache step of `MagArray.__call__`:
`if time not in self.interp: self._create_interp(time)`. -/
def cacheStep (st : MagState) (t : ℤ) : MagState :=
  if (st.interpCache.lookup t).isSome then st else createInterp st t

/-- Models `product = self.interp[time](lon, lat)`: evaluate the cached surface at
the query point through the interpolation backend. -/
def magProduct (L : Interp) (st : MagState) (t : ℤ) (lon lat : ℚ) : Value :=
  ((cacheStep st t).interpCache.lookup t).bind (fun s => L s.1 s.2 lon lat)

/-- The two error exits of `MagArray.__call__`: the
`ValueError('Time outside of data bounds!')` raised by the bounds check, and
the `ValueError('NaN detected in output')` raised under `strict`. -/
inductive MagErr where
  | outOfRange
  | nanDetected
deriving DecidableEq

/-- Models `MagArray.__call__(time, lon, lat, strict)`: bounds check
(`time > self.data['time'][-1] or time < self.data['time'][0]`), lazy cache
construction, evaluation, and the strict NaN check
(`if strict and np.isnan(product)`).  Returns the (possibly mutated) object
state together with the outcome; the cache mutation survives a strict-mode
error, as in the source, because the raise happens after the insertion. -/
def magCall (L : Interp) (st : MagState) (t : ℤ) (lon lat : ℚ) (strict : Bool) :
    MagState × Except MagErr Value :=
  if t > st.data.timeIdx.getLastD 0 ∨ t < st.data.timeIdx.headD 0 then
    (st, Except.error MagErr.outOfRange)
  else if strict && (magProduct L st t lon lat).isNone then
    (cacheStep st t, Except.error MagErr.nanDetected)
  else
    (cacheStep st t, Except.ok (magProduct L st t lon lat))

/-- Computes `vals[np.isfinite(vals)].max()` when some finite value exists, else NaN
(the `if/else` of the `bmax` loop in `convert_netcdf.py`). -/
def maxFinite (vals : List Value) : Value :=
  (vals.filterMap id).foldl
    (fun acc x =>
      match acc with
      | none => some x
      | some m => some (max m x))
    none

/-- One step of the `bmax` loop of `convert_netcdf.py`:
`istart, istop = max(0, i-width), min(i+width, nPoints)` and
`vals = data[s]['b'][istart:istop]` (a Python slice, whose upper bound is
exclusive), then the finite maximum of `vals`. -/
def bmaxAt (width : ℕ) (b : List Value) (i : ℕ) : Value :=
  let istart := i - width
  let istop := min (i + width) b.length
  maxFinite ((b.drop istart).take (istop - istart))

/-- The full `bmax` array of `convert_netcdf.py` for window size
`windowsize`, with `width = int(np.floor(windowsize/2))`. -/
def rollingBmax (windowsize : ℕ) (b : List Value) : List Value :=
  (List.range b.length).map (fun i => bmaxAt (windowsize / 2) b i)

/-- Modelled from the spec: the rolling max at index `i` is the maximum of
the finite values at indices in the closed interval
`[i-⌊w/2⌋, i+⌊w/2⌋]` clipped to the array bounds (so the slice runs from
`max(0, i-width)` through `min(i+width, n-1)` inclusive), non-finite when
the window holds no finite value.  Stated for comparison with `bmaxAt`. -/
def bmaxClosedAt (width : ℕ) (b : List Value) (i : ℕ) : Value :=
  let istart := i - width
  let istop := min (i + width + 1) b.length
  maxFinite ((b.drop istart).take (istop - istart))

/-- Modelled from the spec: the rolling-maximum array over closed centered
windows, for comparison with `rollingBmax`. -/
def rollingBmaxSpec (windowsize : ℕ) (b : List Value) : List Value :=
  (List.range b.length).map (fun i => bmaxClosedAt (windowsize / 2) b i)

/-- The longitude update in `load_radar_info`:
`if info[station][1] <= 0: info[station][1] += 360.0`. -/
def normalizeLon (x : ℚ) : ℚ :=
  if x ≤ 0 then x + 360 else x

/-- Models `load_radar_info` on the parsed data rows of the catalog CSV (header
already skipped, each row split into the station code and the two numeric
fields `parts[1]`, `parts[2]`): stores `[float(parts[1]), float(parts[2])]`
and then normalizes the second stored component. -/
def load_radar_info (rows : List (String × ℚ × ℚ)) : List (String × ℚ × ℚ) :=
  rows.map (fun r => (r.1, r.2.1, normalizeLon r.2.2))

/-- Modelled from the spec for comparison with `load_radar_info` (claim C9):
the catalog row's first numeric field is the longitude (the normalized
field) and the second is the latitude, giving pairs in `(lon, lat)` order. -/
def load_radar_info_lonFirst (rows : List (String × ℚ × ℚ)) : List (String × ℚ × ℚ) :=
  rows.map (fun r => (r.1, normalizeLon r.2.1, r.2.2))

/-- The interpolation query of `generate_db.py`
(`obs(t, radars[r][1], radars[r][0])`): the stored pair's second component
is passed as the `lon` argument and its first component as the `lat`
argument of `MagArray.__call__`, with the default `strict=False`. -/
def generateDbQuery (L : Interp) (st : MagState) (t : ℤ) (radarLoc : ℚ × ℚ) :
    MagState × Except MagErr Value :=
  magCall L st t radarLoc.2 radarLoc.1 false

/-- A concrete interpolation backend for witnesses: returns the first
construction value (any deterministic function of the construction data
would do). -/
def headInterp : Interp := fun _ vals _ _ => vals.head?

/-- Decidable equality of call outcomes, used to evaluate the embedding at
concrete inputs. -/
instance {e a : Type} [DecidableEq e] [DecidableEq a] : DecidableEq (Except e a) := fun x y =>
  match x, y with
  | .error u, .error v =>
      if h : u = v then isTrue (by rw [h]) else isFalse (by simp [h])
  | .error _, .ok _ => isFalse (by simp)
  | .ok _, .error _ => isFalse (by simp)
  | .ok u, .ok v =>
      if h : u = v then isTrue (by rw [h]) else isFalse (by simp [h])

/-- Concrete four-station dataset over two timestamps; station `"D"` has a
non-finite reading at every timestamp. -/
def d4 : Dataset :=
  { keys := ["time", "A", "B", "C", "D"]
  , timeIdx := [0, 1]
  , stn := fun m =>
      if m = "A" then ⟨0, 0, [some 1, some 1]⟩
      else if m = "B" then ⟨10, 0, [some 2, some 2]⟩
      else if m = "C" then ⟨0, 10, [some 3, some 3]⟩
      else ⟨5, 5, [none, none]⟩ }

/-- Dataset `d4` with the non-finite station `"D"` removed from the key list. -/
def d4noD : Dataset :=
  { keys := d4.keys.erase "D"
  , timeIdx := d4.timeIdx
  , stn := d4.stn }

/-- Concrete dataset in which only two stations have finite readings. -/
def d6 : Dataset :=
  { keys := ["time", "A", "B", "C", "D"]
  , timeIdx := [0, 1]
  , stn := fun m =>
      if m = "A" then ⟨0, 0, [some 1, some 1]⟩
      else if m = "B" then ⟨10, 0, [some 2, some 2]⟩
      else ⟨5, 5, [none, none]⟩ }

/-! ## Helper lemmas -/

/-- Looking up a freshly appended cache key finds the new entry. -/
theorem lookup_append_self {b : Type} (l : List (ℤ × b)) (t : ℤ) (s : b)
    (h : l.lookup t = none) : (l ++ [(t, s)]).lookup t = some s := by
  induction l with
  | nil => simp [List.lookup]
  | cons a l ih =>
    obtain ⟨k, v⟩ := a
    by_cases hk : (t == k) = true
    · simp [List.lookup, hk] at h
    · simp only [List.cons_append, List.lookup, hk] at h ⊢
      exact ih h

/-- Appending a cache entry for `t` leaves every other key's lookup alone. -/
theorem lookup_append_ne {b : Type} (l : List (ℤ × b)) (t u : ℤ) (s : b)
    (h : u ≠ t) : (l ++ [(t, s)]).lookup u = l.lookup u := by
  induction l with
  | nil =>
    have hb : (u == t) = false := beq_false_of_ne h
    simp [List.lookup, hb]
  | cons a l ih =>
    obtain ⟨k, v⟩ := a
    by_cases hk : (u == k) = true
    · simp only [List.cons_append, List.lookup, hk]
    · simp only [List.cons_append, List.lookup, hk] at ih ⊢
      exact ih

/-- Characterization of the constructed surface: when `points` holds the
per-station coordinates in station-enumeration order (as `__init__` builds
them), the kept pairs are exactly the coordinate/value pairs of the stations
whose reading at `t` is finite, in enumeration order. -/
theorem surfOf_eq (st : MagState) (t : ℤ)
    (hpts : st.points = (st.data.keys.erase "time").map (fun m => coordOf st.data m)) :
    surfOf st t =
      (((st.data.keys.erase "time").filter (fun m => (valAt st.data m t).isSome)).map
          (fun m => coordOf st.data m),
       ((st.data.keys.erase "time").filter (fun m => (valAt st.data m t).isSome)).map
          (fun m => (valAt st.data m t).getD 0)) := by
  unfold surfOf
  rw [hpts]
  simp [List.zip_map', List.filter_map, List.map_map, Function.comp_def]

/-- Erasing one occurrence of an element the filter drops anyway does not
change the filtered list. -/
theorem filter_erase_of_neg {l : List String} {x : String} {p : String → Bool}
    (hx : p x = false) : (l.erase x).filter p = l.filter p := by
  induction l with
  | nil => rfl
  | cons a l ih =>
    rw [List.erase_cons]
    by_cases hax : (a == x) = true
    · rw [if_pos hax]
      have ha : a = x := eq_of_beq hax
      rw [List.filter_cons, ha, hx]
      simp
    · rw [if_neg hax, List.filter_cons, List.filter_cons]
      by_cases hpa : p a = true
      · simp [hpa, ih]
      · simp only [Bool.not_eq_true] at hpa
        simp [hpa, ih]

/-! ## Claim theorems -/

/-- Claim C1 (code_bug evidence): at an in-range query the embedded
`MagArray.__call__` returns a single scalar, computed by applying the one
interpolation backend to the one surface built from the instantaneous `b`
channel only; no rolling-max interpolant exists and no pair is returned
(`generate_db.py` nevertheless unpacks the result into two values). -/
theorem magCall_single_channel_product :
    (magCall headInterp (magInit d4) 0 5 5 false).2 = Except.ok (some 1) ∧
    surfOf (magInit d4) 0 = ([(0, 0), (10, 0), (0, 10)], [1, 2, 3]) := by
  decide

/-- Claim C2: surface construction drops a station with a non-finite reading
jointly with its coordinates: the surface built from a dataset containing a
non-finite station equals the surface built from the same dataset with that
station removed, so every evaluation of the interpolant (in particular at
the excluded station's own coordinate and at the remaining stations' exact
coordinates) is unchanged by adding or removing the bad station. -/
theorem createInterp_excludes_nonfinite_jointly (d d' : Dataset) (t : ℤ) (x : String)
    (hx : x ≠ "time")
    (hNd : d.keys.Nodup)
    (hkeys : d'.keys = d.keys.erase x)
    (htime : d'.timeIdx = d.timeIdx)
    (hstn : ∀ m, m ≠ x → d'.stn m = d.stn m)
    (hbad : valAt d x t = none) :
    surfOf (magInit d) t = surfOf (magInit d') t ∧
    ∀ (L : Interp) (lon lat : ℚ),
      L (surfOf (magInit d) t).1 (surfOf (magInit d) t).2 lon lat =
      L (surfOf (magInit d') t).1 (surfOf (magInit d') t).2 lon lat := by
  have hval : ∀ m, m ≠ x → valAt d' m t = valAt d m t := by
    intro m hm
    unfold valAt
    rw [htime, hstn m hm]
  have hcoord : ∀ m, m ≠ x → coordOf d' m = coordOf d m := by
    intro m hm
    unfold coordOf
    rw [hstn m hm]
  have h1 := surfOf_eq (magInit d) t rfl
  have h2 := surfOf_eq (magInit d') t rfl
  have hdata : (magInit d).data = d := rfl
  have hdata' : (magInit d').data = d' := rfl
  rw [hdata] at h1
  rw [hdata'] at h2
  have hmags : d'.keys.erase "time" = (d.keys.erase "time").erase x := by
    rw [hkeys, List.erase_comm]
  have hNdmags : (d.keys.erase "time").Nodup := hNd.erase "time"
  have hpx : (fun m => (valAt d m t).isSome) x = false := by
    simp [hbad]
  have hcongr : ((d.keys.erase "time").erase x).filter (fun m => (valAt d' m t).isSome)
      = ((d.keys.erase "time").erase x).filter (fun m => (valAt d m t).isSome) :=
    List.filter_congr (fun m hm => by
      have hmx : m ≠ x := ((hNdmags.mem_erase_iff).mp hm).1
      rw [hval m hmx])
  have hfilter :
      (d'.keys.erase "time").filter (fun m => (valAt d' m t).isSome)
        = (d.keys.erase "time").filter (fun m => (valAt d m t).isSome) := by
    rw [hmags, hcongr]
    exact filter_erase_of_neg hpx
  have mne : ∀ m ∈ (d.keys.erase "time").filter (fun m => (valAt d m t).isSome), m ≠ x := by
    intro m hm heq
    have hmem := List.of_mem_filter hm
    rw [heq] at hmem
    simp [hbad] at hmem
  have hsurf : surfOf (magInit d) t = surfOf (magInit d') t := by
    rw [h1, h2, hfilter]
    simp only [Prod.mk.injEq]
    constructor
    · exact List.map_congr_left (fun m hm => (hcoord m (mne m hm)).symm)
    · exact List.map_congr_left (fun m hm => by rw [hval m (mne m hm)])
  exact ⟨hsurf, fun L lon lat => by rw [hsurf]⟩

/-- Claim C2 witness: in the concrete four-station dataset `d4`, station
`"D"` is non-finite at timestamp 0 and the surface equals the surface of
`d4noD`, the dataset with `"D"` removed. -/
theorem createInterp_excludes_nonfinite_jointly_witness :
    ("D" ≠ "time") ∧ d4.keys.Nodup ∧ valAt d4 "D" 0 = none ∧
    surfOf (magInit d4) 0 = surfOf (magInit d4noD) 0 :=
  ⟨by decide, by decide, rfl,
   (createInterp_excludes_nonfinite_jointly d4 d4noD 0 "D" (by decide) (by decide)
      rfl rfl (fun m hm => rfl) rfl).1⟩

/-- Claim C3: within the time bounds, the surface cache is keyed by exact
timestamp equality: a query whose timestamp is already cached leaves the
object state entirely unchanged (a pure cache hit, whatever the coordinates
or the strict flag), the first query for a timestamp appends exactly one
entry holding the constructed surface under that exact key, and the lookup
of every other timestamp is untouched. -/
theorem magCall_cache_per_timestamp (L : Interp) (st : MagState) (t : ℤ)
    (lon lat : ℚ) (strict : Bool)
    (h : ¬(t > st.data.timeIdx.getLastD 0 ∨ t < st.data.timeIdx.headD 0)) :
    ((st.interpCache.lookup t).isSome = true → (magCall L st t lon lat strict).1 = st) ∧
    (st.interpCache.lookup t = none →
      (magCall L st t lon lat strict).1.interpCache
        = st.interpCache ++ [(t, surfOf st t)] ∧
      (magCall L st t lon lat strict).1.interpCache.lookup t = some (surfOf st t)) ∧
    (∀ u : ℤ, u ≠ t →
      (magCall L st t lon lat strict).1.interpCache.lookup u
        = st.interpCache.lookup u) := by
  have hfst : (magCall L st t lon lat strict).1 = cacheStep st t := by
    unfold magCall
    rw [if_neg h]
    split <;> rfl
  refine ⟨?_, ?_, ?_⟩
  · intro hhit
    rw [hfst]
    unfold cacheStep
    rw [if_pos hhit]
  · intro hmiss
    have hcs : cacheStep st t = createInterp st t := by
      unfold cacheStep
      rw [hmiss]
      simp
    rw [hfst, hcs]
    refine ⟨rfl, ?_⟩
    exact lookup_append_self st.interpCache t (surfOf st t) hmiss
  · intro u hu
    rw [hfst]
    unfold cacheStep
    by_cases hhit : (st.interpCache.lookup t).isSome = true
    · rw [if_pos hhit]
    · rw [if_neg hhit]
      exact lookup_append_ne st.interpCache t u (surfOf st t) hu

/-- Claim C3 witness: querying the fresh `d4` object at the in-range
timestamp 0 constructs and caches exactly one surface entry. -/
theorem magCall_cache_per_timestamp_witness :
    (¬ ((0 : ℤ) > d4.timeIdx.getLastD 0 ∨ (0 : ℤ) < d4.timeIdx.headD 0)) ∧
    (magInit d4).interpCache.lookup 0 = none ∧
    (magCall headInterp (magInit d4) 0 5 5 false).1.interpCache
      = (magInit d4).interpCache ++ [(0, surfOf (magInit d4) 0)] :=
  ⟨by decide, rfl,
   ((magCall_cache_per_timestamp headInterp (magInit d4) 0 5 5 false (by decide)).2.1 rfl).1⟩

/-- Claim C4: the bounds check rejects a query (with the out-of-range error)
exactly when the timestamp is strictly earlier than the first or strictly
later than the last entry of the shared time index; a timestamp equal to
either bound is not rejected by the bounds check. -/
theorem magCall_bounds_check_iff (L : Interp) (st : MagState) (t : ℤ)
    (lon lat : ℚ) (strict : Bool)
    (hne : st.data.timeIdx ≠ []) :
    ((magCall L st t lon lat strict).2 = Except.error MagErr.outOfRange ↔
      (t < st.data.timeIdx.headD 0 ∨ t > st.data.timeIdx.getLastD 0)) := by
  unfold magCall
  by_cases h : t > st.data.timeIdx.getLastD 0 ∨ t < st.data.timeIdx.headD 0
  · rw [if_pos h]
    simp only [eq_self_iff_true, true_iff]
    exact h.symm
  · rw [if_neg h]
    push_neg at h
    constructor
    · intro hres
      split at hres <;> simp at hres
    · intro hor
      rcases hor with h1 | h2
      · exact absurd h1 (not_lt.mpr h.2)
      · exact absurd h2 (not_lt.mpr h.1)

/-- Claim C4 witness: on `d4` (time index `[0, 1]`) the query at timestamp 5
is rejected as out of range, by the theorem's equivalence. -/
theorem magCall_bounds_check_iff_witness :
    ((magInit d4).data.timeIdx ≠ []) ∧
    ((magCall headInterp (magInit d4) 5 1 1 false).2 = Except.error MagErr.outOfRange ↔
      ((5 : ℤ) < (magInit d4).data.timeIdx.headD 0 ∨
        (5 : ℤ) > (magInit d4).data.timeIdx.getLastD 0)) :=
  ⟨by decide, magCall_bounds_check_iff headInterp (magInit d4) 5 1 1 false (by decide)⟩

/-- Claim C5: within the time bounds, the call fails with the NaN error
exactly when `strict` is set and the interpolated product is non-finite;
with `strict = false` the product is returned unchanged (non-finite or not)
and no error is raised. -/
theorem magCall_strict_nan_iff (L : Interp) (st : MagState) (t : ℤ)
    (lon lat : ℚ) (strict : Bool)
    (h : ¬(t > st.data.timeIdx.getLastD 0 ∨ t < st.data.timeIdx.headD 0)) :
    ((magCall L st t lon lat strict).2 = Except.error MagErr.nanDetected ↔
      (strict = true ∧ magProduct L st t lon lat = none)) ∧
    (strict = false →
      (magCall L st t lon lat strict).2 = Except.ok (magProduct L st t lon lat)) := by
  unfold magCall
  rw [if_neg h]
  constructor
  · by_cases hs : (strict && (magProduct L st t lon lat).isNone) = true
    · rw [if_pos hs]
      simp only [Bool.and_eq_true, Option.isNone_iff_eq_none] at hs
      simp [hs]
    · rw [if_neg hs]
      simp only [Bool.and_eq_true, Option.isNone_iff_eq_none] at hs
      constructor
      · intro hres
        simp at hres
      · intro hc
        exact absurd hc hs
  · intro hfalse
    rw [hfalse]
    simp

/-- Claim C5 witness: the strict-mode equivalence instantiated on `d4` at
the in-range timestamp 0. -/
theorem magCall_strict_nan_iff_witness :
    (¬ ((0 : ℤ) > (magInit d4).data.timeIdx.getLastD 0 ∨
        (0 : ℤ) < (magInit d4).data.timeIdx.headD 0)) ∧
    ((magCall headInterp (magInit d4) 0 5 5 true).2 = Except.error MagErr.nanDetected ↔
      (true = true ∧ magProduct headInterp (magInit d4) 0 5 5 = none)) :=
  ⟨by decide, (magCall_strict_nan_iff headInterp (magInit d4) 0 5 5 true (by decide)).1⟩

/-- Claim C6 (code_bug evidence): on a timestamp where only two stations
have finite readings, the embedded `_create_interp` happily builds a
two-point surface and the query returns a value: no insufficient-stations
error exists anywhere in `MagArray`. -/
theorem createInterp_no_min_station_check :
    ((surfOf (magInit d6) 0).1.length = 2 ∧ (surfOf (magInit d6) 0).2.length = 2) ∧
    (magCall headInterp (magInit d6) 0 5 5 false).2 = Except.ok (some 1) := by
  decide

/-- Claim C7 (code_bug evidence): the `bmax` loop of `convert_netcdf.py`
slices `b[istart:istop]` with the exclusive stop `min(i+width, nPoints)`, so
its window is `[i-⌊w/2⌋, i+⌊w/2⌋-1]`, not the closed centered window
`[i-⌊w/2⌋, i+⌊w/2⌋]` promised by the module docstring and the spec: for
window size 3 on `[1, 2]` the code yields `1` at index 0 where the closed
window yields `2`. -/
theorem rollingBmax_window_off_by_one :
    rollingBmax 3 [some 1, some 2] = [some 1, some 2] ∧
    rollingBmaxSpec 3 [some 1, some 2] = [some 2, some 2] ∧
    rollingBmax 3 [some 1, some 2] ≠ rollingBmaxSpec 3 [some 1, some 2] := by
  decide

/-- Claim C8 counterexample: a catalog row whose raw longitude is 0 loads as
360.0, which does not lie in the interval `[0, 360)`. -/
theorem load_radar_info_lon_zero_cex :
    load_radar_info [("A", 40, 0)] = [("A", 40, 360)] ∧
    ¬ ((360 : ℚ) < 360) := by
  constructor
  · simp [load_radar_info, normalizeLon]
  · norm_num

/-- Claim C8 (amended): catalog load adds 360.0 to the longitude exactly
when the raw parsed value is ≤ 0 and leaves it alone otherwise; a raw
longitude of -10 loads as 350.0, and raw values in (-360, 0) ∪ (0, 360)
land in [0, 360), but a raw longitude of 0 loads as 360.0. -/
theorem load_radar_info_normalization_amended (s : String) (lat x : ℚ) :
    load_radar_info [(s, lat, x)] = [(s, lat, normalizeLon x)] ∧
    (x ≤ 0 → normalizeLon x = x + 360) ∧
    (0 < x → normalizeLon x = x) ∧
    (-360 < x → x ≠ 0 → x < 360 → 0 ≤ normalizeLon x ∧ normalizeLon x < 360) ∧
    normalizeLon (-10) = 350 := by
  refine ⟨rfl, ?_, ?_, ?_, ?_⟩
  · intro hle
    unfold normalizeLon
    rw [if_pos hle]
  · intro hgt
    unfold normalizeLon
    rw [if_neg (not_le.mpr hgt)]
  · intro hlow hnz hhigh
    unfold normalizeLon
    by_cases hle : x ≤ 0
    · rw [if_pos hle]
      constructor
      · linarith
      · have hneg : x < 0 := lt_of_le_of_ne hle hnz
        linarith
    · rw [if_neg hle]
      push_neg at hle
      exact ⟨le_of_lt hle, hhigh⟩
  · unfold normalizeLon
    norm_num

/-- Claim C8 witness: the amended normalization rule evaluated on the raw
longitude -10, which loads as 350.0, inside [0, 360). -/
theorem load_radar_info_normalization_amended_witness :
    load_radar_info [("A", 40, -10)] = [("A", 40, normalizeLon (-10))] ∧
    ((-10 : ℚ) ≤ 0) ∧ normalizeLon (-10) = -10 + 360 ∧
    (0 ≤ normalizeLon (-10) ∧ normalizeLon (-10) < 360) := by
  have h := load_radar_info_normalization_amended "A" 40 (-10)
  exact ⟨h.1, by norm_num, h.2.1 (by norm_num),
    h.2.2.2.1 (by norm_num) (by norm_num) (by norm_num)⟩

/-- Claim C9 counterexample: the code does not treat the first numeric field
as the longitude: on a row with first field -10 the first component is left
at -10 (no normalization), while the spec-modelled lon-first loader
normalizes it to 350; the two loaders disagree on this row. -/
theorem load_radar_info_order_cex :
    load_radar_info [("A", -10, 40)] = [("A", -10, 40)] ∧
    load_radar_info_lonFirst [("A", -10, 40)] = [("A", 350, 40)] ∧
    load_radar_info [("A", -10, 40)] ≠ load_radar_info_lonFirst [("A", -10, 40)] := by
  refine ⟨?_, ?_, ?_⟩
  · simp [load_radar_info, normalizeLon]
  · simp [load_radar_info_lonFirst, normalizeLon]
    norm_num
  · simp [load_radar_info, load_radar_info_lonFirst, normalizeLon]

/-- Claim C9 (amended): catalog load maps each row to the pair
`(lat, lon)` in that order: the first numeric field is the latitude, stored
first and unmodified, and the second numeric field is the longitude, stored
second and normalized; accordingly `generate_db.py` passes the stored pair's
second component as the `lon` argument and its first component as the `lat`
argument of the query. -/
theorem load_radar_info_lat_lon_order_amended (rows : List (String × ℚ × ℚ))
    (s : String) (p1 p2 : ℚ)
    (hmem : (s, p1, p2) ∈ rows) :
    (s, p1, normalizeLon p2) ∈ load_radar_info rows ∧
    ∀ (L : Interp) (st : MagState) (t : ℤ) (radarLoc : ℚ × ℚ),
      generateDbQuery L st t radarLoc = magCall L st t radarLoc.2 radarLoc.1 false := by
  constructor
  · unfold load_radar_info
    exact List.mem_map.mpr ⟨(s, p1, p2), hmem, rfl⟩
  · intro L st t radarLoc
    rfl

/-- Claim C9 witness: the amended order statement evaluated on the single
row `("A", 5, -10)` (latitude 5, longitude -10 normalized to 350). -/
theorem load_radar_info_lat_lon_order_amended_witness :
    (("A", (5 : ℚ), (-10 : ℚ)) ∈ [("A", (5 : ℚ), (-10 : ℚ))]) ∧
    ("A", (5 : ℚ), normalizeLon (-10)) ∈ load_radar_info [("A", 5, -10)] :=
  ⟨List.mem_singleton.mpr rfl,
   (load_radar_info_lat_lon_order_amended [("A", 5, -10)] "A" 5 (-10)
      (List.mem_singleton.mpr rfl)).1⟩

/-- Claim C10: the coordinate/value alignment invariant: `__init__` and
`_create_interp` enumerate the dataset's keys with the reserved `"time"`
key removed in the same order, so the i-th stored coordinate row and the
i-th gathered reading belong to the same station, and the joint finiteness
filter keeps each surviving coordinate paired with that same station's
reading: the surface is exactly the per-station (coordinate, reading) pairs
of the finitely-reading stations, in enumeration order. -/
theorem magArray_coordinate_value_alignment (d : Dataset) (t : ℤ) :
    (magInit d).points = (d.keys.erase "time").map (fun m => coordOf d m) ∧
    surfOf (magInit d) t =
      (((d.keys.erase "time").filter (fun m => (valAt d m t).isSome)).map
          (fun m => coordOf d m),
       ((d.keys.erase "time").filter (fun m => (valAt d m t).isSome)).map
          (fun m => (valAt d m t).getD 0)) :=
  ⟨rfl, surfOf_eq (magInit d) t rfl⟩

end BirdBeaks
